import Mathlib

/-! Kore: WASAPI audio feeder and Direct3D11 vertex buffer.

A shallow embedding of

* `Backends/Audio2/WASAPI/Sources/Kore/WASAPI.winrt.cpp`
  (`copySample`, `submitBuffer`, `audioThread`, `initAudio`, `Audio2::init`) and
* `Backends/Direct3D11/Sources/Kore/VertexBufferImpl.cpp`
  (`VertexBuffer::VertexBuffer`, `lock`, `count`, `stride`),

followed by the theorems that settle the claims C1 .. C10.

Modelling conventions.

* `UINT32` / `unsigned` values are naturals; every `UINT32` operation of the source
  that can leave the range is reduced modulo `2^32` (`mulU32`, `subU32`).
* `int` values of the vertex buffer are integers; every `int` operation is passed
  through `wrapInt32` (the result modulo `2^32` that the x86 targets of these
  backends compute), and `/` is the truncating division of C, `Int.tdiv`.
* A `float` is the rational it denotes: the four bytes found at a byte offset of the
  ring buffer are represented by their value.  The product `value * 32767` is the
  binary32 product, that is the exact product rounded to the nearest binary32 value,
  ties to even (`roundBinary32`).  The conversion to `s16` discards the fractional
  part (`truncate`); outside the range of `s16` the cast is undefined in C++, and
  the model takes what the x86 targets compute: the 32-bit conversion
  (`floatToInt32`) followed by the low sixteen bits (`toS16`).
* Calls that leave the file (the render client, the audio client, the two Win32
  events, `Audio2::audioCallback`) are inputs of the model: their results are
  arguments, and every call is recorded, in program order, in a trace of `Event`s.
-/

namespace Kore

/-! ## Machine arithmetic -/

/-- The product of two `UINT32` values, as the machine computes it. -/
def mulU32 (a b : Nat) : Nat := (a * b) % 4294967296

/-- The difference of two `UINT32` values, as the machine computes it. -/
def subU32 (a b : Nat) : Nat := (a % 4294967296 + (4294967296 - b % 4294967296)) % 4294967296

/-- The value a 32-bit `int` holds after an operation whose exact result is `z`. -/
def wrapInt32 (z : Int) : Int := (z + 2147483648) % 4294967296 - 2147483648

/-- Conversion of a `float` value to an integer: the fractional part is discarded. -/
def truncate (q : ℚ) : Int := Int.tdiv q.num q.den

/-- Rounding toward zero, in the words of the numeric semantics: the floor of a
non-negative value, the ceiling of a negative one. -/
def roundTowardZero (q : ℚ) : Int := if 0 ≤ q then ⌊q⌋ else ⌈q⌉

/-- Rounding of a rational to the nearest integer, ties to the even one. -/
def roundHalfEven (r : ℚ) : Int :=
  if r - ⌊r⌋ < 1 / 2 then ⌊r⌋
  else if 1 / 2 < r - ⌊r⌋ then ⌊r⌋ + 1
  else if ⌊r⌋ % 2 = 0 then ⌊r⌋ else ⌊r⌋ + 1

/-- The exponent of the spacing of the binary32 values around `q`: 23 below the
binary exponent of `q` (24 significant bits), and -149 in the subnormal range. -/
def ulpExponent (q : ℚ) : Int := max (Int.log 2 |q| - 23) (-149)

/-- The result of a binary32 operation whose exact result is `q`: the nearest multiple
of the spacing, ties to even.  A result too large for binary32 is not replaced by an
infinity; every value of magnitude `2^31` or more converts to an integer alike
(`floatToInt32`). -/
def roundBinary32 (q : ℚ) : ℚ := roundHalfEven (q / 2 ^ ulpExponent q) * 2 ^ ulpExponent q

/-- The conversion of a `float` to a 32-bit integer as the x86 targets perform it:
the truncated value when it fits, and `-2^31` otherwise. -/
def floatToInt32 (q : ℚ) : Int :=
  if -2147483648 ≤ truncate q ∧ truncate q ≤ 2147483647 then truncate q else -2147483648

/-- The low sixteen bits of an integer, read as a signed number; the identity on
`[-32768, 32767]`. -/
def toS16 (z : Int) : Int := (z + 32768) % 65536 - 32768

/-- The expression `(s16)(value * 32767)` of line 38: the binary32 product with
32767 (which is a binary32 value), converted to an integer and cut to sixteen
bits. -/
def convertSample (value : ℚ) : Int := toS16 (floatToInt32 (roundBinary32 (value * 32767)))

/-! ## The ring buffer (`Audio2::buffer`) -/

namespace Audio2

/-- Modelled from the spec: the `Buffer` struct of `Kore/Audio2/Audio.h`, whose
declaration is not among the sources.  The two cursors and the capacity are byte
offsets (naturals); `data o` is the `float` held by the four bytes that start at
offset `o`. -/
structure Buffer where
  readLocation : Nat
  writeLocation : Nat
  dataSize : Nat
  data : Nat → ℚ

/-- Function `Audio2::init`, lines 144-147: both cursors at 0 and a fresh array of
`128 * 1024` bytes, whose (uninitialised) content is the argument `mem`. -/
def init (mem : Nat → ℚ) : Buffer :=
  { readLocation := 0, writeLocation := 0, dataSize := 128 * 1024, data := mem }

/-- The cursor invariant of the data model: both cursors are below the capacity. -/
def Buffer.cursorsInRange (b : Buffer) : Prop :=
  b.readLocation < b.dataSize ∧ b.writeLocation < b.dataSize

instance (b : Buffer) : Decidable b.cursorsInRange := by
  unfold Buffer.cursorsInRange; infer_instance

end Audio2

/-- Function `copySample`, lines 34-39.  The result is the buffer after the call together
with the value stored through the `s16*` argument. -/
def copySample (b : Audio2.Buffer) : Audio2.Buffer × Int :=
  let value := b.data b.readLocation
  let r := b.readLocation + 4
  let r' := if r ≥ b.dataSize then 0 else r
  ({ b with readLocation := r' }, convertSample value)

/-- The buffer after `n` successive calls of `copySample`. -/
def copySampleN : Nat → Audio2.Buffer → Audio2.Buffer
  | 0, b => b
  | n + 1, b => copySampleN n (copySample b).1

/-- The values written by `n` successive calls of `copySample`, in call order. -/
def copiedValues : Nat → Audio2.Buffer → List Int
  | 0, _ => []
  | n + 1, b => (copySample b).2 :: copiedValues n (copySample b).1

/-- The ring buffer of Scenario A: capacity 16 bytes, both cursors at 0, holding
the samples 0.5, -0.5, 1.0, -1.0 at the byte offsets 0, 4, 8, 12. -/
def scenarioA : Audio2.Buffer :=
  { readLocation := 0, writeLocation := 0, dataSize := 16,
    data := fun o =>
      if o = 0 then 1 / 2 else if o = 4 then -1 / 2 else if o = 8 then 1
      else if o = 12 then -1 else 0 }

/-- A ring buffer whose samples all are `0.5 + 2^-16`, a binary32 value whose
product with 32767 is not a binary32 value. -/
def offGridSample : Audio2.Buffer :=
  { readLocation := 0, writeLocation := 0, dataSize := 16, data := fun _ => 32769 / 65536 }

/-! ## Calls that leave the file -/

/-- One externally visible action of the audio thread (or, for `SetDone`, of the
thread that requests the shutdown), in the order in which it happens. -/
inductive Event where
  /-- Call `renderClient->GetBuffer(frames, &buffer)` and whether it succeeded. -/
  | GetBuffer (frames : Nat) (ok : Bool)
  /-- Call `Audio2::audioCallback(samples)`. -/
  | audioCallback (samples : Nat)
  /-- Call `copySample(&s16buffer[i])`: it read the four bytes at `offset` of the
  ring buffer and stored `value` at position `i` of the hardware region. -/
  | copySample (i : Nat) (offset : Nat) (value : Int)
  /-- Call `renderClient->ReleaseBuffer(frames, 0)`. -/
  | ReleaseBuffer (frames : Nat)
  /-- Call `audioClient->Start()`. -/
  | Start
  /-- Call `WaitForSingleObject(audioProcessingDoneEvent, 0)` and whether it returned
  `WAIT_OBJECT_0`. -/
  | WaitForDone (signalled : Bool)
  /-- Call `WaitForSingleObject(bufferEndEvent, INFINITE)`, when it returns. -/
  | WaitForBufferEnd
  /-- Call `audioClient->GetCurrentPadding(&padding)`: `none` when it failed. -/
  | GetCurrentPadding (padding : Option Nat)
  /-- Another thread signalled `audioProcessingDoneEvent`. -/
  | SetDone
  deriving DecidableEq

/-- What the audio thread works on: `Audio2::buffer` and the trace so far. -/
structure State where
  buffer : Audio2.Buffer
  trace : List Event

/-- The loop of lines 49-51, entered with loop variable `i` and `k` iterations to
go (`k = frames * 2 - i`, so the guard `i < frames * 2` holds exactly while `k` is
not 0). -/
def copyLoop : Nat → Nat → State → State
  | 0, _, st => st
  | k + 1, i, st =>
    copyLoop k (i + 1)
      { buffer := (copySample st.buffer).1,
        trace := st.trace ++
          [Event.copySample i st.buffer.readLocation (copySample st.buffer).2] }

/-- The calls made by `k` iterations of the loop of lines 49-51 when it is entered
with loop variable `i` on the ring buffer `b`. -/
def loopEvents (k i : Nat) (b : Audio2.Buffer) : List Event :=
  (List.range k).map fun j =>
    Event.copySample (i + j) (copySampleN j b).readLocation (copySample (copySampleN j b)).2

/-- Function `submitBuffer`, lines 41-54.  `audioCallback` is the function behind the
pointer `Audio2::audioCallback` (it receives the value of the `UINT32` expression
`frames * 2` and may change the ring buffer), `getBufferOk` is the outcome of
`GetBuffer`. -/
def submitBuffer (audioCallback : Nat → Audio2.Buffer → Audio2.Buffer)
    (getBufferOk : Bool) (frames : Nat) (st : State) : State :=
  let st1 : State := { st with trace := st.trace ++ [Event.GetBuffer frames getBufferOk] }
  if getBufferOk = false then st1
  else
    let samples := mulU32 frames 2
    let st2 : State :=
      { buffer := audioCallback samples st1.buffer,
        trace := st1.trace ++ [Event.audioCallback samples] }
    let st3 := copyLoop samples 0 st2
    { st3 with trace := st3.trace ++ [Event.ReleaseBuffer frames] }

/-- The globals `bufferFrames` and `channels`. -/
structure Globals where
  bufferFrames : Nat
  channels : Nat

/-- Function `initAudio`, lines 70-101, as far as the two globals go: `bufferFrames` is what
`GetBufferSize` stores (a `UINT32`), `channels` is `format.nChannels` of the local
`WAVEFORMATEX`, set to 2 on line 81. -/
def initAudio (hardwareBufferSize : Nat) : Globals :=
  let nChannels := 2
  { bufferFrames := hardwareBufferSize % 4294967296, channels := nChannels }

/-- Where the audio thread stands: before line 57, at the loop condition of line
59, blocked in the wait of line 60, or behind the loop. -/
inductive Pc where
  | start
  | loopHead
  | waiting
  | exited
  deriving DecidableEq

/-- The audio thread with the two (auto-reset) events it waits on. -/
structure Thread where
  pc : Pc
  audioProcessingDoneEvent : Bool
  bufferEndEvent : Bool
  st : State

/-- What can happen next: another thread requests the shutdown, the hardware
signals that buffer space became available, or the audio thread runs to its next
control point, the audio client answering `GetCurrentPadding` with `padding` and the
render client answering `GetBuffer` with `getBufferOk` should they be asked. -/
inductive Input where
  | SetDone
  | SignalBufferEnd
  | Run (padding : Option Nat) (getBufferOk : Bool)
  deriving DecidableEq

/-- One step of `audioThread`, lines 56-68, with `bufferFrames` the global of that
name.  A thread blocked on an unsignalled `bufferEndEvent` does not move. -/
def audioThread (audioCallback : Nat → Audio2.Buffer → Audio2.Buffer)
    (bufferFrames : Nat) (t : Thread) : Input → Thread
  | Input.SetDone =>
    { t with audioProcessingDoneEvent := true,
             st := { t.st with trace := t.st.trace ++ [Event.SetDone] } }
  | Input.SignalBufferEnd => { t with bufferEndEvent := true }
  | Input.Run padding getBufferOk =>
    match t.pc with
    | Pc.start =>
      let st1 := submitBuffer audioCallback getBufferOk bufferFrames t.st
      { t with pc := Pc.loopHead, st := { st1 with trace := st1.trace ++ [Event.Start] } }
    | Pc.loopHead =>
      if t.audioProcessingDoneEvent then
        { t with pc := Pc.exited, audioProcessingDoneEvent := false,
                 st := { t.st with trace := t.st.trace ++ [Event.WaitForDone true] } }
      else
        { t with pc := Pc.waiting,
                 st := { t.st with trace := t.st.trace ++ [Event.WaitForDone false] } }
    | Pc.waiting =>
      if t.bufferEndEvent then
        let st1 : State :=
          { t.st with trace := t.st.trace ++
              [Event.WaitForBufferEnd, Event.GetCurrentPadding padding] }
        match padding with
        | none => { t with pc := Pc.loopHead, bufferEndEvent := false, st := st1 }
        | some p =>
          let frames := subU32 bufferFrames p
          { t with pc := Pc.loopHead, bufferEndEvent := false,
                   st := submitBuffer audioCallback getBufferOk frames st1 }
      else t
    | Pc.exited => t

/-- The thread after a sequence of inputs. -/
def runThread (audioCallback : Nat → Audio2.Buffer → Audio2.Buffer) (bufferFrames : Nat)
    (t : Thread) (inputs : List Input) : Thread :=
  inputs.foldl (audioThread audioCallback bufferFrames) t

/-- The number of `ReleaseBuffer` calls in a trace. -/
def commits (tr : List Event) : Nat :=
  (tr.filter fun e => match e with
    | Event.ReleaseBuffer _ => true
    | _ => false).length

/-- The byte offsets of the ring buffer read by the `copySample` calls of a trace,
in call order. -/
def readOffsets : List Event → List Nat
  | [] => []
  | Event.copySample _ o _ :: tr => o :: readOffsets tr
  | _ :: tr => readOffsets tr

/-- The part of a trace behind the first `SetDone`. -/
def afterSetDone : List Event → List Event
  | [] => []
  | Event.SetDone :: tr => tr
  | _ :: tr => afterSetDone tr

/-- A producer for the examples: it writes `samples` times the value 1/4 from the
write cursor on and advances the write cursor with wraparound. -/
def constantProducer (samples : Nat) (b : Audio2.Buffer) : Audio2.Buffer :=
  { b with
    writeLocation := (b.writeLocation + 4 * samples) % b.dataSize,
    data := fun o =>
      if b.writeLocation ≤ o ∧ o < b.writeLocation + 4 * samples then 1 / 4 else b.data o }

/-! ## The Direct3D11 vertex buffer -/

/-- The values of `structure.elements[i].data` the constructor tells apart; every
other value of the enumeration falls through the `switch`. -/
inductive VertexData where
  | Float2VertexData
  | Float3VertexData
  | Float4VertexData
  | ColorVertexData
  | other (code : Nat)
  deriving DecidableEq

/-- The fields of a `VertexBuffer` the claims are about.  `myCount` and `myStride` are
declared in `VertexBufferImpl.h`, which is not among the sources; they are taken to
be `int`, the type in which `count()` and `stride()` return them.  `verticesLength`
is the length handed to `new float[...]`. -/
structure VertexBuffer where
  myCount : Int
  myStride : Int
  verticesLength : Int

/-- The loop of lines 16-31 over the remaining elements, `myStride` being the
second argument. -/
def strideLoop : List VertexData → Int → Int
  | [], myStride => myStride
  | VertexData.Float2VertexData :: es, myStride => strideLoop es (wrapInt32 (myStride + 2 * 4))
  | VertexData.Float3VertexData :: es, myStride => strideLoop es (wrapInt32 (myStride + 3 * 4))
  | VertexData.Float4VertexData :: es, myStride => strideLoop es (wrapInt32 (myStride + 4 * 4))
  | VertexData.ColorVertexData :: es, myStride => strideLoop es (wrapInt32 (myStride + 1 * 4))
  | VertexData.other _ :: es, myStride => strideLoop es myStride

/-- Constructor `VertexBuffer::VertexBuffer(count, structure)`, lines 14-33; `elements` are the
`data` fields of `structure.elements[0 .. size-1]`. -/
def VertexBuffer.new (count : Int) (elements : List VertexData) : VertexBuffer :=
  let myStride := strideLoop elements 0
  { myCount := count, myStride := myStride,
    verticesLength := wrapInt32 (Int.tdiv myStride 4 * count) }

/-- Function `VertexBuffer::count`, lines 72-74. -/
def VertexBuffer.count (vb : VertexBuffer) : Int := vb.myCount

/-- Function `VertexBuffer::stride`, lines 76-78. -/
def VertexBuffer.stride (vb : VertexBuffer) : Int := vb.myStride

/-- Function `VertexBuffer::lock(int start, int count)`, lines 55-57: the index into
`vertices` of the element whose address is returned. -/
def VertexBuffer.lock (vb : VertexBuffer) (start _count : Int) : Int :=
  Int.tdiv (wrapInt32 (start * vb.myStride)) 4

/-- Function `VertexBuffer::lock()`, lines 51-53. -/
def VertexBuffer.lockAll (vb : VertexBuffer) : Int := vb.lock 0 vb.count

/-- The byte size of one element, as the claim lists them. -/
def byteSize : VertexData → Int
  | VertexData.Float2VertexData => 8
  | VertexData.Float3VertexData => 12
  | VertexData.Float4VertexData => 16
  | VertexData.ColorVertexData => 4
  | VertexData.other _ => 0

/-- The sum of the per-element byte sizes. -/
def byteSizeSum (elements : List VertexData) : Int := (elements.map byteSize).sum

/-- An element is one of `Float2`, `Float3`, `Float4`, `Color`. -/
def isFloatOrColor : VertexData → Bool
  | VertexData.other _ => false
  | _ => true


/-! ## Lemmas on the conversion -/

theorem truncate_of_nonneg {q : ℚ} (h : 0 ≤ q) : truncate q = ⌊q⌋ := by
  unfold truncate
  rw [Rat.floor_def]
  exact Int.tdiv_eq_ediv (Rat.num_nonneg.mpr h) (Int.ofNat_nonneg _)

theorem truncate_neg (q : ℚ) : truncate (-q) = -truncate q := by
  unfold truncate
  rw [Rat.neg_num, Rat.neg_den, Int.neg_tdiv]

theorem truncate_of_nonpos {q : ℚ} (h : q ≤ 0) : truncate q = ⌈q⌉ := by
  have h1 : truncate (-q) = ⌊-q⌋ := truncate_of_nonneg (neg_nonneg.mpr h)
  rw [truncate_neg, Int.floor_neg] at h1
  exact neg_injective h1

theorem truncate_eq_roundTowardZero (q : ℚ) : truncate q = roundTowardZero q := by
  unfold roundTowardZero
  split
  · next h => exact truncate_of_nonneg h
  · next h => exact truncate_of_nonpos (le_of_lt (not_le.mp h))

theorem toS16_of_range {z : Int} (h1 : -32768 ≤ z) (h2 : z ≤ 32767) : toS16 z = z := by
  unfold toS16
  omega

theorem truncate_bounds {q : ℚ} (h1 : -32767 ≤ q) (h2 : q ≤ 32767) :
    -32767 ≤ truncate q ∧ truncate q ≤ 32767 := by
  rcases le_total 0 q with h | h
  · rw [truncate_of_nonneg h]
    constructor
    · have : (0 : ℤ) ≤ ⌊q⌋ := Int.floor_nonneg.mpr h
      omega
    · have h3 : ((⌊q⌋ : ℤ) : ℚ) ≤ q := Int.floor_le _
      have h4 : ((⌊q⌋ : ℤ) : ℚ) ≤ ((32767 : ℤ) : ℚ) := by
        push_cast
        linarith
      exact_mod_cast h4
  · rw [truncate_of_nonpos h]
    constructor
    · have h3 : q ≤ ((⌈q⌉ : ℤ) : ℚ) := Int.le_ceil _
      have h4 : ((-32767 : ℤ) : ℚ) ≤ ((⌈q⌉ : ℤ) : ℚ) := by
        push_cast
        linarith
      exact_mod_cast h4
    · have : ⌈q⌉ ≤ (0 : ℤ) := Int.ceil_le.mpr (by exact_mod_cast h)
      omega

theorem floatToInt32_of_range {q : ℚ} (h1 : -2147483648 ≤ truncate q)
    (h2 : truncate q ≤ 2147483647) : floatToInt32 q = truncate q := by
  unfold floatToInt32
  rw [if_pos ⟨h1, h2⟩]

/-! ## Lemmas on the binary32 product -/

theorem roundHalfEven_le {r : ℚ} {N : Int} (h : r ≤ N) : roundHalfEven r ≤ N := by
  have hfl : ⌊r⌋ ≤ N := by
    have : (⌊r⌋ : ℚ) ≤ N := (Int.floor_le r).trans h
    exact_mod_cast this
  unfold roundHalfEven
  by_cases hlt : r - ⌊r⌋ < 1 / 2
  · rw [if_pos hlt]; exact hfl
  · have hne : ⌊r⌋ ≠ N := by
      intro heq
      apply hlt
      rw [heq]
      linarith
    have hsucc : ⌊r⌋ + 1 ≤ N := by omega
    rw [if_neg hlt]
    split
    · exact hsucc
    · split
      · exact hfl
      · exact hsucc

theorem le_roundHalfEven {r : ℚ} {N : Int} (h : (N : ℚ) ≤ r) : N ≤ roundHalfEven r := by
  have hfl : N ≤ ⌊r⌋ := Int.le_floor.mpr h
  unfold roundHalfEven
  split
  · exact hfl
  · split
    · omega
    · split
      · exact hfl
      · omega

theorem roundHalfEven_intCast (z : Int) : roundHalfEven (z : ℚ) = z := by
  unfold roundHalfEven
  rw [Int.floor_intCast, sub_self, if_pos (by norm_num)]

theorem log_lt_of_abs_lt {q : ℚ} {x : Int} (hq : q ≠ 0) (h : |q| < 2 ^ x) :
    Int.log 2 |q| < x := by
  have hpos : 0 < |q| := abs_pos.mpr hq
  have := (Int.lt_zpow_iff_log_lt (b := 2) one_lt_two (x := x) hpos).mp (by simpa using h)
  exact this

theorem le_log_of_le_abs {q : ℚ} {x : Int} (hq : q ≠ 0) (h : 2 ^ x ≤ |q|) :
    x ≤ Int.log 2 |q| := by
  have hpos : 0 < |q| := abs_pos.mpr hq
  exact (Int.zpow_le_iff_le_log (b := 2) one_lt_two (x := x) hpos).mp (by simpa using h)

theorem ulpExponent_nonpos {q : ℚ} (h : |q| ≤ 32767) : ulpExponent q ≤ 0 := by
  unfold ulpExponent
  by_cases hq : q = 0
  · rw [hq, abs_zero, Int.log_zero_right]
    decide
  · have hlog : Int.log 2 |q| < 15 := log_lt_of_abs_lt hq (by
      have : (32767 : ℚ) < 2 ^ (15 : ℤ) := by norm_num
      linarith)
    omega

theorem two_zpow_pos (k : Int) : (0 : ℚ) < 2 ^ k := zpow_pos (by norm_num) k

/-- A value of magnitude at most 32767 is rounded to a value of magnitude at most
32767: 32767 lies on every binary32 grid with a non-positive exponent. -/
theorem roundBinary32_bounds {q : ℚ} (h1 : -32767 ≤ q) (h2 : q ≤ 32767) :
    -32767 ≤ roundBinary32 q ∧ roundBinary32 q ≤ 32767 := by
  have hk : ulpExponent q ≤ 0 := ulpExponent_nonpos (abs_le.mpr ⟨h1, h2⟩)
  unfold roundBinary32
  generalize ulpExponent q = k at hk
  obtain ⟨j, rfl⟩ : ∃ j : ℕ, k = -(j : ℤ) := ⟨(-k).toNat, by omega⟩
  have hpow : (2 : ℚ) ^ (-(j : ℤ)) = ((2 : ℚ) ^ j)⁻¹ := by
    rw [zpow_neg, zpow_natCast]
  have hj : (0 : ℚ) < 2 ^ j := by positivity
  rw [hpow, div_inv_eq_mul]
  have hN : (((32767 * 2 ^ j : ℤ)) : ℚ) = 32767 * 2 ^ j := by push_cast; ring
  have hM : (((-(32767 * 2 ^ j) : ℤ)) : ℚ) = -(32767 * 2 ^ j) := by push_cast; ring
  have hup : roundHalfEven (q * 2 ^ j) ≤ 32767 * 2 ^ j :=
    roundHalfEven_le (by rw [hN]; exact mul_le_mul_of_nonneg_right h2 hj.le)
  have hlo : -(32767 * 2 ^ j) ≤ roundHalfEven (q * 2 ^ j) :=
    le_roundHalfEven (by
      rw [hM]
      have := mul_le_mul_of_nonneg_right h1 hj.le
      linarith)
  have hup' : (roundHalfEven (q * 2 ^ j) : ℚ) ≤ 32767 * 2 ^ j := by
    rw [← hN]; exact_mod_cast hup
  have hlo' : -(32767 * 2 ^ j) ≤ (roundHalfEven (q * 2 ^ j) : ℚ) := by
    rw [← hM]; exact_mod_cast hlo
  constructor
  · rw [le_mul_inv_iff₀ hj]
    linarith
  · rw [mul_inv_le_iff₀ hj]
    linarith

/-- A binary32 value (`m * 2^k` with `|m| < 2^24` and `k ≥ -149`) is left as it is. -/
theorem roundBinary32_of_representable (m k : Int) (hm : |m| < 16777216) (hk : -149 ≤ k) :
    roundBinary32 ((m : ℚ) * 2 ^ k) = (m : ℚ) * 2 ^ k := by
  by_cases hm0 : m = 0
  · subst hm0
    unfold roundBinary32
    simp [roundHalfEven]
  · have hq : (m : ℚ) * 2 ^ k ≠ 0 :=
      mul_ne_zero (by exact_mod_cast hm0) (two_zpow_pos k).ne'
    have habs : |(m : ℚ) * 2 ^ k| < 2 ^ (24 + k) := by
      rw [abs_mul, abs_of_pos (two_zpow_pos k), zpow_add₀ (by norm_num : (2 : ℚ) ≠ 0)]
      have hm' : |(m : ℚ)| < 2 ^ (24 : ℤ) := by
        have : ((|m| : ℤ) : ℚ) < ((16777216 : ℤ) : ℚ) := by exact_mod_cast hm
        rw [Int.cast_abs] at this
        norm_num at this ⊢
        exact this
      exact mul_lt_mul_of_pos_right hm' (two_zpow_pos k)
    have hlog := log_lt_of_abs_lt hq habs
    have hu : ulpExponent ((m : ℚ) * 2 ^ k) ≤ k := by
      unfold ulpExponent
      omega
    unfold roundBinary32
    generalize ulpExponent ((m : ℚ) * 2 ^ k) = u at hu
    obtain ⟨j, rfl⟩ : ∃ j : ℕ, k = u + (j : ℤ) := ⟨(k - u).toNat, by omega⟩
    have hsplit : (2 : ℚ) ^ (u + (j : ℤ)) = 2 ^ u * 2 ^ j := by
      rw [zpow_add₀ (by norm_num : (2 : ℚ) ≠ 0), zpow_natCast]
    have hdiv : (m : ℚ) * 2 ^ (u + (j : ℤ)) / 2 ^ u = ((m * 2 ^ j : ℤ) : ℚ) := by
      rw [hsplit]
      push_cast
      field_simp
      ring
    rw [hdiv, roundHalfEven_intCast, hsplit]
    push_cast
    ring

theorem ulpExponent_eq {q : ℚ} (e : Int) (h1 : 2 ^ e ≤ |q|) (h2 : |q| < 2 ^ (e + 1))
    (he : -126 ≤ e) : ulpExponent q = e - 23 := by
  have hq : q ≠ 0 := by
    intro h0
    rw [h0, abs_zero] at h1
    exact absurd h1 (not_le.mpr (two_zpow_pos e))
  have hlo := le_log_of_le_abs hq h1
  have hhi := log_lt_of_abs_lt hq h2
  unfold ulpExponent
  omega

theorem roundBinary32_offGrid : roundBinary32 ((32769 / 65536 : ℚ) * 32767) = 16384 := by
  have hu : ulpExponent ((32769 / 65536 : ℚ) * 32767) = -10 := by
    rw [ulpExponent_eq 13 (by norm_num [abs_of_pos]) (by norm_num [abs_of_pos]) (by decide)]
    rfl
  have hfl : ⌊((32769 / 65536 : ℚ) * 32767) / 2 ^ (-10 : ℤ)⌋ = 16777215 := by
    rw [Int.floor_eq_iff]
    norm_num
  unfold roundBinary32
  rw [hu]
  unfold roundHalfEven
  rw [hfl]
  norm_num


/-- The conversion of a value whose product with 32767 has magnitude at most 32767:
no step after the rounding changes the truncated product. -/
theorem convertSample_of_bounds {v : ℚ} (h1 : -32767 ≤ v * 32767) (h2 : v * 32767 ≤ 32767) :
    convertSample v = truncate (roundBinary32 (v * 32767)) ∧
      -32767 ≤ convertSample v ∧ convertSample v ≤ 32767 := by
  have hr := roundBinary32_bounds h1 h2
  have hb := truncate_bounds hr.1 hr.2
  have hv : convertSample v = truncate (roundBinary32 (v * 32767)) := by
    unfold convertSample
    rw [floatToInt32_of_range (by omega) (by omega)]
    exact toS16_of_range (by omega) (by omega)
  rw [hv]
  exact ⟨rfl, hb⟩

theorem copySample_value (b : Audio2.Buffer) :
    (copySample b).2 = convertSample (b.data b.readLocation) := rfl

/-! ## Lemmas on the read cursor -/

theorem copySample_readLocation (b : Audio2.Buffer) :
    (copySample b).1.readLocation =
      if b.readLocation + 4 ≥ b.dataSize then 0 else b.readLocation + 4 := rfl

theorem copySample_writeLocation (b : Audio2.Buffer) :
    (copySample b).1.writeLocation = b.writeLocation := rfl

theorem copySample_dataSize (b : Audio2.Buffer) :
    (copySample b).1.dataSize = b.dataSize := rfl

theorem copySample_cursorsInRange {b : Audio2.Buffer} (h : b.cursorsInRange) :
    (copySample b).1.cursorsInRange := by
  unfold Audio2.Buffer.cursorsInRange at *
  rw [copySample_readLocation, copySample_writeLocation, copySample_dataSize]
  refine ⟨?_, h.2⟩
  split <;> omega

theorem copySampleN_dataSize (n : Nat) (b : Audio2.Buffer) :
    (copySampleN n b).dataSize = b.dataSize := by
  induction n generalizing b with
  | zero => rfl
  | succ n ih => rw [copySampleN, ih, copySample_dataSize]

theorem copySampleN_writeLocation (n : Nat) (b : Audio2.Buffer) :
    (copySampleN n b).writeLocation = b.writeLocation := by
  induction n generalizing b with
  | zero => rfl
  | succ n ih => rw [copySampleN, ih, copySample_writeLocation]

theorem copySampleN_cursorsInRange (n : Nat) {b : Audio2.Buffer} (h : b.cursorsInRange) :
    (copySampleN n b).cursorsInRange := by
  induction n generalizing b with
  | zero => exact h
  | succ n ih => exact ih (copySample_cursorsInRange h)

theorem copySampleN_succ (n : Nat) (b : Audio2.Buffer) :
    copySampleN (n + 1) b = (copySample (copySampleN n b)).1 := by
  induction n generalizing b with
  | zero => rfl
  | succ n ih =>
    show copySampleN (n + 1) (copySample b).1 = _
    rw [ih]
    rfl

/-- With an aligned cursor in an aligned buffer the read stays inside the buffer
and the cursor moves on by four bytes, modulo the capacity. -/
theorem copySample_aligned {b : Audio2.Buffer} (h4 : 4 ∣ b.dataSize)
    (h4r : 4 ∣ b.readLocation) (hr : b.readLocation < b.dataSize) :
    b.readLocation + 4 ≤ b.dataSize ∧
      (copySample b).1.readLocation = (b.readLocation + 4) % b.dataSize ∧
      4 ∣ (copySample b).1.readLocation ∧
      (copySample b).1.readLocation < b.dataSize := by
  obtain ⟨d, hd⟩ := h4
  obtain ⟨k, hk⟩ := h4r
  have hle : b.readLocation + 4 ≤ b.dataSize := by omega
  rw [copySample_readLocation]
  by_cases hge : b.readLocation + 4 ≥ b.dataSize
  · have heq : b.readLocation + 4 = b.dataSize := by omega
    rw [if_pos hge, heq, Nat.mod_self]
    exact ⟨le_refl _, rfl, dvd_zero 4, by omega⟩
  · rw [if_neg hge, Nat.mod_eq_of_lt (by omega)]
    exact ⟨hle, rfl, ⟨k + 1, by omega⟩, by omega⟩

theorem copySampleN_aligned (n : Nat) {b : Audio2.Buffer} (h4 : 4 ∣ b.dataSize)
    (h4r : 4 ∣ b.readLocation) (hr : b.readLocation < b.dataSize) :
    (copySampleN n b).readLocation = (b.readLocation + 4 * n) % b.dataSize ∧
      4 ∣ (copySampleN n b).readLocation ∧
      (copySampleN n b).readLocation < b.dataSize := by
  induction n with
  | zero => exact ⟨by simp [copySampleN, Nat.mod_eq_of_lt hr], h4r, hr⟩
  | succ n ih =>
    obtain ⟨ih1, ih2, ih3⟩ := ih
    have hds := copySampleN_dataSize n b
    have h := copySample_aligned (b := copySampleN n b) (hds ▸ h4) ih2 (hds ▸ ih3)
    rw [copySampleN_succ]
    rw [hds] at h
    refine ⟨?_, h.2.2.1, h.2.2.2⟩
    rw [h.2.1, ih1, Nat.mod_add_mod]
    congr 1


/-! ## Lemmas on the copy loop and on `submitBuffer` -/

theorem loopEvents_zero (i : Nat) (b : Audio2.Buffer) : loopEvents 0 i b = [] := rfl

theorem loopEvents_succ (k i : Nat) (b : Audio2.Buffer) :
    loopEvents (k + 1) i b =
      Event.copySample i b.readLocation (copySample b).2 ::
        loopEvents k (i + 1) (copySample b).1 := by
  unfold loopEvents
  rw [List.range_succ_eq_map, List.map_cons, List.map_map]
  refine congrArg₂ _ rfl (List.map_congr_left fun j _ => ?_)
  show Event.copySample (i + (j + 1)) _ _ = Event.copySample (i + 1 + j) _ _
  rw [Nat.add_assoc, Nat.add_comm 1 j]
  rfl

theorem copyLoop_eq (k i : Nat) (st : State) :
    copyLoop k i st =
      { buffer := copySampleN k st.buffer, trace := st.trace ++ loopEvents k i st.buffer } := by
  induction k generalizing i st with
  | zero => simp [copyLoop, copySampleN, loopEvents_zero]
  | succ k ih =>
    rw [copyLoop, ih, loopEvents_succ]
    simp [copySampleN]

theorem submitBuffer_failed (cb : Nat → Audio2.Buffer → Audio2.Buffer) (frames : Nat)
    (st : State) :
    submitBuffer cb false frames st =
      { buffer := st.buffer, trace := st.trace ++ [Event.GetBuffer frames false] } := by
  simp [submitBuffer]

theorem submitBuffer_succeeded (cb : Nat → Audio2.Buffer → Audio2.Buffer) (frames : Nat)
    (st : State) :
    submitBuffer cb true frames st =
      { buffer := copySampleN (mulU32 frames 2) (cb (mulU32 frames 2) st.buffer),
        trace := st.trace ++ [Event.GetBuffer frames true] ++
          [Event.audioCallback (mulU32 frames 2)] ++
          loopEvents (mulU32 frames 2) 0 (cb (mulU32 frames 2) st.buffer) ++
          [Event.ReleaseBuffer frames] } := by
  simp [submitBuffer, copyLoop_eq]

theorem commits_append (l₁ l₂ : List Event) :
    commits (l₁ ++ l₂) = commits l₁ + commits l₂ := by
  simp [commits, List.filter_append]

theorem commits_loopEvents (k i : Nat) (b : Audio2.Buffer) : commits (loopEvents k i b) = 0 := by
  simp [commits, loopEvents, List.filter_eq_nil_iff]

theorem mulU32_two_of_lt {n : Nat} (h : n < 2147483648) : mulU32 n 2 = n * 2 := by
  unfold mulU32
  omega

theorem subU32_self (n : Nat) : subU32 n n = 0 := by
  unfold subU32
  omega

theorem readOffsets_append (l₁ l₂ : List Event) :
    readOffsets (l₁ ++ l₂) = readOffsets l₁ ++ readOffsets l₂ := by
  induction l₁ with
  | nil => rfl
  | cons e l ih => cases e <;> simp [readOffsets, ih]

theorem readOffsets_loopEvents (k i : Nat) (b : Audio2.Buffer) :
    readOffsets (loopEvents k i b) =
      (List.range k).map fun j => (copySampleN j b).readLocation := by
  induction k generalizing i b with
  | zero => rfl
  | succ k ih =>
    rw [loopEvents_succ, readOffsets, ih, List.range_succ_eq_map, List.map_cons, List.map_map]
    rfl

theorem loopEvents_from_zero (k : Nat) (b : Audio2.Buffer) :
    loopEvents k 0 b =
      (List.range k).map fun j =>
        Event.copySample j (copySampleN j b).readLocation (copySample (copySampleN j b)).2 := by
  unfold loopEvents
  refine List.map_congr_left fun j _ => ?_
  rw [Nat.zero_add]

theorem audioThread_wake (cb : Nat → Audio2.Buffer → Audio2.Buffer) (bufferFrames : Nat)
    (t : Thread) (p : Nat) (ok : Bool) (hpc : t.pc = Pc.waiting)
    (hsig : t.bufferEndEvent = true) :
    audioThread cb bufferFrames t (Input.Run (some p) ok) =
      { t with
        pc := Pc.loopHead, bufferEndEvent := false,
        st := submitBuffer cb ok (subU32 bufferFrames p)
          { t.st with trace := t.st.trace ++
              [Event.WaitForBufferEnd, Event.GetCurrentPadding (some p)] } } := by
  simp [audioThread, hpc, hsig]

theorem readOffsets_submitted (n m : Nat) (b : Audio2.Buffer) :
    readOffsets ([Event.GetBuffer n true] ++ [Event.audioCallback m] ++ loopEvents m 0 b ++
        [Event.ReleaseBuffer n]) =
      (List.range m).map fun j => (copySampleN j b).readLocation := by
  rw [readOffsets_append, readOffsets_append, readOffsets_loopEvents]
  simp [readOffsets]

/-! ## Lemmas on runs of the thread -/

theorem runThread_append (cb : Nat → Audio2.Buffer → Audio2.Buffer) (bufferFrames : Nat)
    (t : Thread) (l₁ l₂ : List Input) :
    runThread cb bufferFrames t (l₁ ++ l₂) =
      runThread cb bufferFrames (runThread cb bufferFrames t l₁) l₂ := by
  simp [runThread, List.foldl_append]

theorem runThread_exited (cb : Nat → Audio2.Buffer → Audio2.Buffer) (bufferFrames : Nat)
    (inputs : List Input) (t : Thread) (h : t.pc = Pc.exited) :
    (runThread cb bufferFrames t inputs).pc = Pc.exited ∧
      commits (runThread cb bufferFrames t inputs).st.trace = commits t.st.trace := by
  induction inputs generalizing t with
  | nil => exact ⟨h, rfl⟩
  | cons i is ih =>
    show (runThread cb bufferFrames (audioThread cb bufferFrames t i) is).pc = Pc.exited ∧
      commits (runThread cb bufferFrames (audioThread cb bufferFrames t i) is).st.trace =
        commits t.st.trace
    cases i with
    | SetDone =>
      have h' := ih (audioThread cb bufferFrames t Input.SetDone) h
      refine ⟨h'.1, h'.2.trans ?_⟩
      show commits (t.st.trace ++ [Event.SetDone]) = commits t.st.trace
      rw [commits_append]
      rfl
    | SignalBufferEnd => exact ih (audioThread cb bufferFrames t Input.SignalBufferEnd) h
    | Run padding ok =>
      have hstay : audioThread cb bufferFrames t (Input.Run padding ok) = t := by
        simp [audioThread, h]
      rw [hstay]
      exact ih t h

/-! ## Lemmas on the vertex buffer -/

theorem wrapInt32_of_range {z : Int} (h1 : -2147483648 ≤ z) (h2 : z ≤ 2147483647) :
    wrapInt32 z = z := by
  unfold wrapInt32
  omega

theorem byteSize_nonneg (e : VertexData) : 0 ≤ byteSize e := by
  cases e <;> simp [byteSize]

theorem byteSizeSum_cons (e : VertexData) (es : List VertexData) :
    byteSizeSum (e :: es) = byteSize e + byteSizeSum es := by
  simp [byteSizeSum]

theorem byteSizeSum_nonneg (es : List VertexData) : 0 ≤ byteSizeSum es := by
  induction es with
  | nil => simp [byteSizeSum]
  | cons e es ih =>
    rw [byteSizeSum_cons]
    have := byteSize_nonneg e
    omega

theorem byteSizeSum_dvd (es : List VertexData) : 4 ∣ byteSizeSum es := by
  induction es with
  | nil => simp [byteSizeSum]
  | cons e es ih =>
    rw [byteSizeSum_cons]
    refine dvd_add ?_ ih
    cases e <;> simp [byteSize] <;> decide

theorem byteSizeSum_pos {es : List VertexData} (hne : es ≠ [])
    (hkind : ∀ e ∈ es, isFloatOrColor e = true) : 4 ≤ byteSizeSum es := by
  cases es with
  | nil => exact absurd rfl hne
  | cons e es =>
    rw [byteSizeSum_cons]
    have h1 := byteSizeSum_nonneg es
    have h2 : 4 ≤ byteSize e := by
      have hk := hkind e (List.mem_cons_self e es)
      cases e <;> simp [byteSize, isFloatOrColor] at hk ⊢
    omega

theorem strideLoop_eq (es : List VertexData) (s : Int) (hs : 0 ≤ s)
    (hfit : s + byteSizeSum es ≤ 2147483647) : strideLoop es s = s + byteSizeSum es := by
  induction es generalizing s with
  | nil => simp [strideLoop, byteSizeSum]
  | cons e es ih =>
    rw [byteSizeSum_cons] at hfit ⊢
    have hrest := byteSizeSum_nonneg es
    cases e with
    | Float2VertexData =>
      have hw : wrapInt32 (s + 2 * 4) = s + 8 := by
        simp only [byteSize] at hfit
        exact wrapInt32_of_range (by omega) (by omega)
      simp only [strideLoop, byteSize] at hfit ⊢
      rw [hw, ih (s + 8) (by omega) (by omega)]
      omega
    | Float3VertexData =>
      have hw : wrapInt32 (s + 3 * 4) = s + 12 := by
        simp only [byteSize] at hfit
        exact wrapInt32_of_range (by omega) (by omega)
      simp only [strideLoop, byteSize] at hfit ⊢
      rw [hw, ih (s + 12) (by omega) (by omega)]
      omega
    | Float4VertexData =>
      have hw : wrapInt32 (s + 4 * 4) = s + 16 := by
        simp only [byteSize] at hfit
        exact wrapInt32_of_range (by omega) (by omega)
      simp only [strideLoop, byteSize] at hfit ⊢
      rw [hw, ih (s + 16) (by omega) (by omega)]
      omega
    | ColorVertexData =>
      have hw : wrapInt32 (s + 1 * 4) = s + 4 := by
        simp only [byteSize] at hfit
        exact wrapInt32_of_range (by omega) (by omega)
      simp only [strideLoop, byteSize] at hfit ⊢
      rw [hw, ih (s + 4) (by omega) (by omega)]
      omega
    | other code =>
      simp only [strideLoop, byteSize] at hfit ⊢
      rw [ih s hs (by omega)]
      omega

/-- When the exact product with 32767 is a binary32 value of magnitude at most 32767,
the value written is that product with its fractional part discarded. -/
theorem convertSample_of_representable {v : ℚ} (m k : Int) (h : v * 32767 = (m : ℚ) * 2 ^ k)
    (hm : |m| < 16777216) (hk : -149 ≤ k) (h1 : -32767 ≤ v * 32767)
    (h2 : v * 32767 ≤ 32767) : convertSample v = truncate (v * 32767) := by
  rw [(convertSample_of_bounds h1 h2).1, h, roundBinary32_of_representable m k hm hk]

theorem convertSample_half : convertSample (1 / 2) = 16383 := by
  rw [convertSample_of_representable 32767 (-1) (by norm_num) (by decide) (by decide)
    (by norm_num) (by norm_num)]
  norm_num [truncate]
  decide

theorem convertSample_neg_half : convertSample (-(1 / 2)) = -16383 := by
  rw [convertSample_of_representable (-32767) (-1) (by norm_num) (by decide) (by decide)
    (by norm_num) (by norm_num)]
  norm_num [truncate]
  decide

theorem convertSample_one : convertSample 1 = 32767 := by
  rw [convertSample_of_representable 32767 0 (by norm_num) (by decide) (by decide)
    (by norm_num) (by norm_num)]
  norm_num [truncate]

theorem convertSample_neg_one : convertSample (-1) = -32767 := by
  rw [convertSample_of_representable (-32767) 0 (by norm_num) (by decide) (by decide)
    (by norm_num) (by norm_num)]
  norm_num [truncate]

theorem scenarioA_copiedValues : copiedValues 4 scenarioA = [16383, -16383, 32767, -32767] := by
  simp only [copiedValues, copySample, scenarioA]
  norm_num [convertSample_half, convertSample_neg_half, convertSample_one,
    convertSample_neg_one]

/-! ## C3: Scenario A -/

/-- C3, as stated, fails: the four calls of `copySample` on the Scenario A buffer do
not write `[16383, -16384, 32767, -32768]`. -/
theorem C3_scenarioA_refuted :
    copiedValues 4 scenarioA ≠ [16383, -16384, 32767, -32768] := by
  rw [scenarioA_copiedValues]
  decide

/-- C3, amended: on the Scenario A buffer (capacity 16 bytes, read cursor 0, samples
0.5, -0.5, 1.0, -1.0) four successive calls of `copySample` write
`[16383, -16383, 32767, -32767]`, in that order, and leave the read cursor at 0. -/
theorem C3_scenarioA_values :
    copiedValues 4 scenarioA = [16383, -16383, 32767, -32767] ∧
      (copySampleN 4 scenarioA).readLocation = 0 :=
  ⟨scenarioA_copiedValues, by decide⟩

/-! ## C4: the read cursor after `N` reads -/

/-- C4, as stated, fails: with capacity 6 and the read cursor at 0, two calls of
`copySample` leave the cursor at 0, not at `(0 + 4 * 2) mod 6 = 2`. -/
theorem C4_unaligned_refuted :
    (0 : Nat) < 6 ∧
      (copySampleN 2
        { readLocation := 0, writeLocation := 0, dataSize := 6, data := fun _ => 0 }).readLocation
        ≠ (0 + 4 * 2) % 6 := by
  decide

/-- C4, amended: for every ring buffer whose capacity `dataSize > 0` is a multiple
of 4, every initial read cursor `r0 < dataSize` that is a multiple of 4, and every
`N`, after `N` calls of `copySample` the read cursor equals
`(r0 + 4 * N) mod dataSize`. -/
theorem C4_cursor_after_reads (b : Audio2.Buffer) (N : Nat) (_hpos : 0 < b.dataSize)
    (hr : b.readLocation < b.dataSize) (h4 : 4 ∣ b.dataSize) (h4r : 4 ∣ b.readLocation) :
    (copySampleN N b).readLocation = (b.readLocation + 4 * N) % b.dataSize :=
  (copySampleN_aligned N h4 h4r hr).1

/-- C4, amended, on the Scenario A buffer with seven reads. -/
theorem C4_cursor_after_reads_witness :
    (copySampleN 7 scenarioA).readLocation =
      (scenarioA.readLocation + 4 * 7) % scenarioA.dataSize :=
  C4_cursor_after_reads scenarioA 7 (by decide) (by decide) (by decide) (by decide)

/-! ## C5: the cursor invariant -/

/-- C5: the state produced by `Audio2::init` has both cursors at 0 and capacity
131072, so both cursors are below the capacity; and from every state in which both
cursors are below the capacity, `copySample` and `submitBuffer` (for every frame
count, every outcome of `GetBuffer`, every buffer content, and every producer that
itself keeps the cursors below the capacity) lead to a state in which they are. -/
theorem C5_cursor_invariant (mem : Nat → ℚ) (cb : Nat → Audio2.Buffer → Audio2.Buffer)
    (hcb : ∀ samples b, b.cursorsInRange → (cb samples b).cursorsInRange)
    (getBufferOk : Bool) (frames : Nat) (st : State) (h : st.buffer.cursorsInRange) :
    ((Audio2.init mem).readLocation = 0 ∧ (Audio2.init mem).writeLocation = 0 ∧
        (Audio2.init mem).dataSize = 131072 ∧ (Audio2.init mem).cursorsInRange) ∧
      (copySample st.buffer).1.cursorsInRange ∧
      (submitBuffer cb getBufferOk frames st).buffer.cursorsInRange := by
  refine ⟨⟨rfl, rfl, rfl, ?_⟩, copySample_cursorsInRange h, ?_⟩
  · exact ⟨show (0 : Nat) < 128 * 1024 by decide, show (0 : Nat) < 128 * 1024 by decide⟩
  · cases getBufferOk with
    | false => rw [submitBuffer_failed]; exact h
    | true =>
      rw [submitBuffer_succeeded]
      exact copySampleN_cursorsInRange _ (hcb _ _ h)

theorem constantProducer_cursorsInRange (samples : Nat) (b : Audio2.Buffer)
    (h : b.cursorsInRange) : (constantProducer samples b).cursorsInRange := by
  unfold Audio2.Buffer.cursorsInRange at *
  show b.readLocation < b.dataSize ∧ (b.writeLocation + 4 * samples) % b.dataSize < b.dataSize
  exact ⟨h.1, Nat.mod_lt _ (by omega)⟩

/-- C5 on the state produced by `Audio2::init`, with three frames submitted. -/
theorem C5_cursor_invariant_witness :
    (copySample (Audio2.init fun _ => 0)).1.cursorsInRange ∧
      (submitBuffer constantProducer true 3
        { buffer := Audio2.init fun _ => 0, trace := [] }).buffer.cursorsInRange :=
  (C5_cursor_invariant (fun _ => 0) constantProducer constantProducer_cursorsInRange true 3
    { buffer := Audio2.init fun _ => 0, trace := [] } (by decide)).2

/-! ## C6: conversion of a normalized sample -/

/-- C6, as stated, fails: for the sample `f = 0.5 + 2^-16`, which lies in `[-1, 1]`,
`copySample` writes 16384, while `f * 32767` rounded toward zero is 16383 (the
binary32 product is 16384). -/
theorem C6_exact_product_refuted :
    (-1 : ℚ) ≤ 32769 / 65536 ∧ (32769 / 65536 : ℚ) ≤ 1 ∧
      offGridSample.data offGridSample.readLocation = 32769 / 65536 ∧
      (copySample offGridSample).2 = 16384 ∧
      roundTowardZero ((32769 / 65536 : ℚ) * 32767) = 16383 := by
  refine ⟨by norm_num, by norm_num, rfl, ?_, ?_⟩
  · have hv : (copySample offGridSample).2 = convertSample (32769 / 65536) := rfl
    rw [hv, (convertSample_of_bounds (by norm_num) (by norm_num)).1, roundBinary32_offGrid]
    norm_num [truncate]
  · unfold roundTowardZero
    rw [if_pos (by norm_num), Int.floor_eq_iff]
    norm_num

/-- C6, amended: for every sample value `f` with `-1 ≤ f ≤ 1` (an exact rational),
`copySample` writes the integer obtained by rounding toward zero the binary32
product of `f` and 32767 (the exact product rounded to the nearest binary32 value,
ties to even); that integer lies in `[-32767, 32767]`, so the conversion to a signed
16-bit integer neither overflows nor wraps; and whenever `f * 32767` is itself a
binary32 value (`m * 2^k` with `|m| < 2^24` and `k ≥ -149`), the integer written is
`f * 32767` rounded toward zero. -/
theorem C6_normalized_sample (b : Audio2.Buffer) (f : ℚ) (hf : b.data b.readLocation = f)
    (h1 : -1 ≤ f) (h2 : f ≤ 1) :
    (copySample b).2 = roundTowardZero (roundBinary32 (f * 32767)) ∧
      -32767 ≤ (copySample b).2 ∧ (copySample b).2 ≤ 32767 ∧
      toS16 (floatToInt32 (roundBinary32 (f * 32767))) =
        truncate (roundBinary32 (f * 32767)) ∧
      (∀ m k : Int, f * 32767 = (m : ℚ) * 2 ^ k → |m| < 16777216 → -149 ≤ k →
        (copySample b).2 = roundTowardZero (f * 32767)) := by
  have hlo : -32767 ≤ f * 32767 := by linarith
  have hhi : f * 32767 ≤ 32767 := by linarith
  have hc := convertSample_of_bounds hlo hhi
  rw [copySample_value, hf]
  refine ⟨?_, hc.2.1, hc.2.2, hc.1, ?_⟩
  · rw [hc.1]
    exact truncate_eq_roundTowardZero _
  · intro m k hmk hm hk
    rw [convertSample_of_representable m k hmk hm hk hlo hhi]
    exact truncate_eq_roundTowardZero _

/-- C6, amended, on the Scenario A buffer, whose first sample 0.5 has the binary32
product `32767 * 2^-1` with 32767. -/
theorem C6_normalized_sample_witness :
    (copySample scenarioA).2 = roundTowardZero ((1 / 2 : ℚ) * 32767) :=
  (C6_normalized_sample scenarioA (1 / 2) (by simp [scenarioA]) (by norm_num)
    (by norm_num)).2.2.2.2 32767 (-1) (by norm_num) (by decide) (by decide)

/-! ## C7: the sequence of calls of a successful `submitBuffer` -/

/-- C7, as stated, fails: for the frame count `2^31` the request succeeds, yet the
producer is called with argument 0, not with `2^31 * channels`, no sample is copied,
and the region of `2^31` frames is committed. -/
theorem C7_large_frame_count_refuted :
    (submitBuffer constantProducer true 2147483648
        { buffer := Audio2.init fun _ => 0, trace := [] }).trace =
        [Event.GetBuffer 2147483648 true, Event.audioCallback 0,
          Event.ReleaseBuffer 2147483648] ∧
      2147483648 * (initAudio 1920).channels ≠ 0 := by
  constructor
  · rw [submitBuffer_succeeded]
    have h : mulU32 2147483648 2 = 0 := by decide
    rw [h]
    rfl
  · decide

/-- C7, amended: for every frame count `n` for which the hardware region request
succeeds, `submitBuffer(n)` performs exactly this sequence: one request of a region
of `n` frames, exactly one invocation of `Audio2::audioCallback` with argument
`m = (n * channels) mod 2^32` (`channels` being the value set by `initAudio`, i.e.
2) made before any sample is popped, exactly `m` calls of `copySample` writing the
output positions `0 .. m - 1` in order, and then one commit of `n` frames; and
`m = n * channels` whenever `n < 2^31`. -/
theorem C7_submit_sequence (cb : Nat → Audio2.Buffer → Audio2.Buffer) (n hw : Nat)
    (st : State) :
    (submitBuffer cb true n st).trace =
        st.trace ++
          [Event.GetBuffer n true, Event.audioCallback (mulU32 n (initAudio hw).channels)] ++
          ((List.range (mulU32 n (initAudio hw).channels)).map fun j =>
            Event.copySample j
              (copySampleN j (cb (mulU32 n (initAudio hw).channels) st.buffer)).readLocation
              (copySample
                (copySampleN j (cb (mulU32 n (initAudio hw).channels) st.buffer))).2) ++
          [Event.ReleaseBuffer n] ∧
      (submitBuffer cb true n st).buffer =
        copySampleN (mulU32 n (initAudio hw).channels)
          (cb (mulU32 n (initAudio hw).channels) st.buffer) ∧
      (initAudio hw).channels = 2 ∧
      mulU32 n (initAudio hw).channels = (n * (initAudio hw).channels) % 4294967296 ∧
      (n < 2147483648 → mulU32 n (initAudio hw).channels = n * (initAudio hw).channels) := by
  have hc : (initAudio hw).channels = 2 := rfl
  rw [hc, submitBuffer_succeeded, loopEvents_from_zero]
  refine ⟨by simp, rfl, rfl, rfl, fun h => mulU32_two_of_lt h⟩

/-! ## C9: aligned reads stay inside the buffer -/

/-- C9, as stated, fails, on a ring buffer of capacity 12 with the read cursor at 0:
`submitBuffer(2^31)` with a successful request makes no read and leaves the cursor
at 0, not at `(0 + 8 * 2^31) mod 12 = 4`; and `submitBuffer(1)` with a failing
request leaves the cursor at 0, not at `(0 + 8 * 1) mod 12 = 8`. -/
theorem C9_cursor_formula_refuted :
    (4 ∣ 12 ∧ 0 < 12 ∧ 4 ∣ 0 ∧ 0 < 12) ∧
      (submitBuffer constantProducer true 2147483648
        { buffer := { readLocation := 0, writeLocation := 0, dataSize := 12, data := fun _ => 0 },
          trace := [] }).buffer.readLocation ≠ (0 + 8 * 2147483648) % 12 ∧
      (submitBuffer constantProducer false 1
        { buffer := { readLocation := 0, writeLocation := 0, dataSize := 12, data := fun _ => 0 },
          trace := [] }).buffer.readLocation ≠ (0 + 8 * 1) % 12 := by
  refine ⟨by decide, ?_, ?_⟩
  · rw [submitBuffer_succeeded]
    have h : mulU32 2147483648 2 = 0 := by decide
    rw [h]
    show (0 : Nat) ≠ (0 + 8 * 2147483648) % 12
    decide
  · rw [submitBuffer_failed]
    show (0 : Nat) ≠ (0 + 8 * 1) % 12
    decide

/-- C9, amended: if `dataSize` is a positive multiple of 4 and `readLocation` is a
multiple of 4 below `dataSize` (as established by `Audio2::init`), then every call
of `copySample` reads its 4 bytes inside the buffer (`readLocation + 4 ≤ dataSize`)
and leaves `readLocation` a multiple of 4 below `dataSize`; so for every `n` and a
producer that leaves the read cursor and the capacity alone, all reads made by
`submitBuffer(n)` are in bounds; there are `m = (2 * n) mod 2^32` of them when the
region request succeeds, and afterwards `readLocation` is
`(old readLocation + 4 * m) mod dataSize`, which is
`(old readLocation + 8 * n) mod dataSize` whenever `n < 2^31`; when the request fails
there is no read and `readLocation` is unchanged. -/
theorem C9_reads_in_bounds (cb : Nat → Audio2.Buffer → Audio2.Buffer)
    (hcb : ∀ samples b, (cb samples b).readLocation = b.readLocation ∧
      (cb samples b).dataSize = b.dataSize)
    (mem : Nat → ℚ) (getBufferOk : Bool) (n : Nat) (st : State)
    (h4 : 4 ∣ st.buffer.dataSize) (_hpos : 0 < st.buffer.dataSize)
    (h4r : 4 ∣ st.buffer.readLocation) (hr : st.buffer.readLocation < st.buffer.dataSize) :
    (4 ∣ (Audio2.init mem).dataSize ∧ 0 < (Audio2.init mem).dataSize ∧
        4 ∣ (Audio2.init mem).readLocation ∧
        (Audio2.init mem).readLocation < (Audio2.init mem).dataSize) ∧
      (st.buffer.readLocation + 4 ≤ st.buffer.dataSize ∧
        4 ∣ (copySample st.buffer).1.readLocation ∧
        (copySample st.buffer).1.readLocation < st.buffer.dataSize) ∧
      (∃ calls, (submitBuffer cb getBufferOk n st).trace = st.trace ++ calls ∧
        (∀ o ∈ readOffsets calls, o + 4 ≤ st.buffer.dataSize) ∧
        (readOffsets calls).length = if getBufferOk then mulU32 n 2 else 0) ∧
      (submitBuffer cb getBufferOk n st).buffer.readLocation =
        (if getBufferOk then (st.buffer.readLocation + 4 * mulU32 n 2) % st.buffer.dataSize
         else st.buffer.readLocation) ∧
      (getBufferOk = true → n < 2147483648 →
        (submitBuffer cb getBufferOk n st).buffer.readLocation =
          (st.buffer.readLocation + 8 * n) % st.buffer.dataSize) := by
  have hinit : 4 ∣ (Audio2.init mem).dataSize ∧ 0 < (Audio2.init mem).dataSize ∧
      4 ∣ (Audio2.init mem).readLocation ∧
      (Audio2.init mem).readLocation < (Audio2.init mem).dataSize := by
    refine ⟨?_, ?_, ?_, ?_⟩
    · show 4 ∣ 128 * 1024
      decide
    · show 0 < 128 * 1024
      decide
    · exact dvd_zero 4
    · show 0 < 128 * 1024
      decide
  have hone := copySample_aligned h4 h4r hr
  refine ⟨hinit, ⟨hone.1, hone.2.2.1, hone.2.2.2⟩, ?_⟩
  cases getBufferOk with
  | false =>
    rw [submitBuffer_failed]
    refine ⟨⟨[Event.GetBuffer n false], rfl, ?_, rfl⟩, rfl, ?_⟩
    · intro o ho
      simp [readOffsets] at ho
    · intro h
      exact absurd h (by decide)
  | true =>
    rw [submitBuffer_succeeded]
    obtain ⟨hcr, hcd⟩ := hcb (mulU32 n 2) st.buffer
    have h4' : 4 ∣ (cb (mulU32 n 2) st.buffer).dataSize := hcd ▸ h4
    have h4r' : 4 ∣ (cb (mulU32 n 2) st.buffer).readLocation := hcr ▸ h4r
    have hr' : (cb (mulU32 n 2) st.buffer).readLocation < (cb (mulU32 n 2) st.buffer).dataSize := by
      rw [hcr, hcd]
      exact hr
    have hN := (copySampleN_aligned (mulU32 n 2) h4' h4r' hr').1
    rw [hcr, hcd] at hN
    refine ⟨⟨[Event.GetBuffer n true] ++ [Event.audioCallback (mulU32 n 2)] ++
        loopEvents (mulU32 n 2) 0 (cb (mulU32 n 2) st.buffer) ++ [Event.ReleaseBuffer n],
      by simp, ?_, ?_⟩, hN, ?_⟩
    · intro o ho
      rw [readOffsets_submitted, List.mem_map] at ho
      obtain ⟨j, _, hj⟩ := ho
      obtain ⟨_, h2, h3⟩ := copySampleN_aligned j h4' h4r' hr'
      obtain ⟨d, hd⟩ := h4
      obtain ⟨c, hc⟩ := h2
      rw [hcd] at h3
      omega
    · rw [readOffsets_submitted, List.length_map, List.length_range]
      rfl
    · intro _ hn
      show (copySampleN (mulU32 n 2) (cb (mulU32 n 2) st.buffer)).readLocation = _
      rw [hN, mulU32_two_of_lt hn]
      congr 1
      omega

theorem constantProducer_cursor (samples : Nat) (b : Audio2.Buffer) :
    (constantProducer samples b).readLocation = b.readLocation ∧
      (constantProducer samples b).dataSize = b.dataSize :=
  ⟨rfl, rfl⟩

/-- C9, amended, on the state produced by `Audio2::init`, with three frames. -/
theorem C9_reads_in_bounds_witness :
    (submitBuffer constantProducer true 3
        { buffer := Audio2.init fun _ => 0, trace := [] }).buffer.readLocation =
      ((Audio2.init fun _ => 0).readLocation + 8 * 3) % (Audio2.init fun _ => 0).dataSize :=
  (C9_reads_in_bounds constantProducer constantProducer_cursor (fun _ => 0) true 3
    { buffer := Audio2.init fun _ => 0, trace := [] }
    (show 4 ∣ 128 * 1024 by decide) (show 0 < 128 * 1024 by decide) (dvd_zero 4)
    (show 0 < 128 * 1024 by decide)).2.2.2.2 rfl (by decide)

/-! ## C1: a refill cycle with nothing to refill -/

/-- C1, as stated, fails: in a refill cycle with `padding = bufferFrames = 1920` and
a successful region request, `Audio2::audioCallback` is invoked, with argument 0. -/
theorem C1_callback_invoked_refuted :
    Event.audioCallback 0 ∈
      (audioThread constantProducer 1920
        { pc := Pc.waiting, audioProcessingDoneEvent := false, bufferEndEvent := true,
          st := { buffer := Audio2.init fun _ => 0, trace := [] } }
        (Input.Run (some 1920) true)).st.trace := by
  rw [audioThread_wake _ _ _ _ _ rfl rfl, subU32_self, submitBuffer_succeeded]
  have hm : mulU32 0 2 = 0 := rfl
  rw [hm]
  simp

/-- C1, amended: for every refill cycle of `audioThread` in which the queried padding
equals `bufferFrames`, the computed frame count is `bufferFrames - padding = 0`, and
`submitBuffer(0)` pops no sample.  When the region request fails, it is a no-op:
`Audio2::audioCallback` is not invoked and the ring buffer is unchanged.  When the
region request succeeds, `Audio2::audioCallback` is invoked exactly once, with
argument 0, `copySample` is not called, a region of 0 frames is committed, and the
ring buffer is as the producer left it (so `readLocation` is unchanged when the
producer does not move it). -/
theorem C1_zero_frames (cb : Nat → Audio2.Buffer → Audio2.Buffer) (bufferFrames : Nat)
    (t : Thread) (getBufferOk : Bool) (hpc : t.pc = Pc.waiting)
    (hsig : t.bufferEndEvent = true) :
    subU32 bufferFrames bufferFrames = 0 ∧
      (audioThread cb bufferFrames t (Input.Run (some bufferFrames) getBufferOk)).st.trace =
        t.st.trace ++
          [Event.WaitForBufferEnd, Event.GetCurrentPadding (some bufferFrames),
            Event.GetBuffer 0 getBufferOk] ++
          (if getBufferOk then [Event.audioCallback 0, Event.ReleaseBuffer 0] else []) ∧
      (audioThread cb bufferFrames t (Input.Run (some bufferFrames) getBufferOk)).st.buffer =
        (if getBufferOk then cb 0 t.st.buffer else t.st.buffer) ∧
      ((cb 0 t.st.buffer).readLocation = t.st.buffer.readLocation →
        (audioThread cb bufferFrames t
          (Input.Run (some bufferFrames) getBufferOk)).st.buffer.readLocation =
          t.st.buffer.readLocation) := by
  rw [audioThread_wake _ _ _ _ _ hpc hsig, subU32_self]
  have hm : mulU32 0 2 = 0 := rfl
  cases getBufferOk with
  | false =>
    rw [submitBuffer_failed]
    exact ⟨rfl, by simp, rfl, fun _ => rfl⟩
  | true =>
    rw [submitBuffer_succeeded, hm]
    exact ⟨rfl, by simp [loopEvents_zero], rfl, fun h => h⟩

/-- C1, amended, on a thread woken with `padding = bufferFrames = 1920` whose region
request fails. -/
theorem C1_zero_frames_witness :
    (audioThread constantProducer 1920
        { pc := Pc.waiting, audioProcessingDoneEvent := false, bufferEndEvent := true,
          st := { buffer := Audio2.init fun _ => 0, trace := [] } }
        (Input.Run (some 1920) false)).st.trace =
      [] ++ [Event.WaitForBufferEnd, Event.GetCurrentPadding (some 1920),
          Event.GetBuffer 0 false] ++
        (if false = true then [Event.audioCallback 0, Event.ReleaseBuffer 0] else []) :=
  (C1_zero_frames constantProducer 1920
    { pc := Pc.waiting, audioProcessingDoneEvent := false, bufferEndEvent := true,
      st := { buffer := Audio2.init fun _ => 0, trace := [] } } false rfl rfl).2.1

/-! ## C2: a declined region request -/

/-- C2: for every frame count and every ring-buffer state, a `submitBuffer` whose
region request fails records that request and nothing else (no
`Audio2::audioCallback`, no `copySample`, no `ReleaseBuffer`) and leaves the ring
buffer, `readLocation` and contents included, as it was.  In the loop of
`audioThread` the cycle then ends at the loop condition with a single `GetBuffer`
made (no retry), and, the shutdown not being requested, the next step of the thread
is the wait on `bufferEndEvent`, where it stays blocked until the next signal. -/
theorem C2_declined_request (cb : Nat → Audio2.Buffer → Audio2.Buffer)
    (bufferFrames frames p : Nat) (st : State) (t : Thread) (padding : Option Nat)
    (ok : Bool) (hpc : t.pc = Pc.waiting) (hsig : t.bufferEndEvent = true)
    (hrun : t.audioProcessingDoneEvent = false) :
    ((submitBuffer cb false frames st).trace = st.trace ++ [Event.GetBuffer frames false] ∧
        (submitBuffer cb false frames st).buffer = st.buffer) ∧
      ((audioThread cb bufferFrames t (Input.Run (some p) false)).pc = Pc.loopHead ∧
        (audioThread cb bufferFrames t (Input.Run (some p) false)).st.trace =
          t.st.trace ++ [Event.WaitForBufferEnd, Event.GetCurrentPadding (some p),
            Event.GetBuffer (subU32 bufferFrames p) false] ∧
        (audioThread cb bufferFrames t (Input.Run (some p) false)).st.buffer = t.st.buffer) ∧
      ((runThread cb bufferFrames t [Input.Run (some p) false, Input.Run padding ok]).pc =
          Pc.waiting ∧
        (runThread cb bufferFrames t [Input.Run (some p) false, Input.Run padding ok]).st.trace =
          t.st.trace ++ [Event.WaitForBufferEnd, Event.GetCurrentPadding (some p),
            Event.GetBuffer (subU32 bufferFrames p) false, Event.WaitForDone false] ∧
        (runThread cb bufferFrames t
          [Input.Run (some p) false, Input.Run padding ok]).st.buffer = t.st.buffer ∧
        runThread cb bufferFrames t
            [Input.Run (some p) false, Input.Run padding ok, Input.Run padding ok] =
          runThread cb bufferFrames t [Input.Run (some p) false, Input.Run padding ok]) := by
  refine ⟨⟨by rw [submitBuffer_failed], by rw [submitBuffer_failed]⟩, ?_, ?_⟩
  · rw [audioThread_wake _ _ _ _ _ hpc hsig, submitBuffer_failed]
    exact ⟨rfl, by simp, rfl⟩
  · simp only [runThread, List.foldl]
    rw [audioThread_wake _ _ _ _ _ hpc hsig, submitBuffer_failed]
    simp [audioThread, hrun]

/-- C2 on a thread woken with padding 1000 of 1920 frames whose region request
fails. -/
theorem C2_declined_request_witness :
    (audioThread constantProducer 1920
        { pc := Pc.waiting, audioProcessingDoneEvent := false, bufferEndEvent := true,
          st := { buffer := Audio2.init fun _ => 0, trace := [] } }
        (Input.Run (some 1000) false)).st.trace =
      [] ++ [Event.WaitForBufferEnd, Event.GetCurrentPadding (some 1000),
        Event.GetBuffer (subU32 1920 1000) false] :=
  (C2_declined_request constantProducer 1920 5
    1000 { buffer := Audio2.init fun _ => 0, trace := [] }
    { pc := Pc.waiting, audioProcessingDoneEvent := false, bufferEndEvent := true,
      st := { buffer := Audio2.init fun _ => 0, trace := [] } } none true rfl rfl rfl).2.1.2.1

/-! ## C8: shutdown requested during the wait -/

/-- C8, as stated, fails: a thread blocked in the wait, for which the shutdown is
requested and then `bufferEndEvent` is signalled once, commits a region
(`ReleaseBuffer 1`) after the request before it leaves the loop. -/
theorem C8_commit_after_shutdown_refuted :
    (runThread constantProducer 1
        { pc := Pc.waiting, audioProcessingDoneEvent := false, bufferEndEvent := false,
          st := { buffer := Audio2.init fun _ => 0, trace := [] } }
        [Input.SetDone, Input.SignalBufferEnd, Input.Run (some 0) true,
          Input.Run (some 0) true]).pc = Pc.exited ∧
      Event.ReleaseBuffer 1 ∈ afterSetDone
        (runThread constantProducer 1
          { pc := Pc.waiting, audioProcessingDoneEvent := false, bufferEndEvent := false,
            st := { buffer := Audio2.init fun _ => 0, trace := [] } }
          [Input.SetDone, Input.SignalBufferEnd, Input.Run (some 0) true,
            Input.Run (some 0) true]).st.trace := by
  simp only [runThread, List.foldl]
  constructor
  · simp [audioThread]
  · have hf : subU32 1 0 = 1 := by decide
    simp [audioThread, submitBuffer_succeeded, afterSetDone, hf]

/-- C8, amended: if the shutdown flag (`audioProcessingDoneEvent`) becomes set while
the thread is blocked in the wait, then after that wait is signalled once the thread
finishes the cycle it is in (it queries the padding and, when that succeeds, calls
`submitBuffer` once, which commits one region when the region request succeeds and
none otherwise) and then exits the loop at the next check of the flag, without
waiting again; once the thread has exited, no further commit is made. -/
theorem C8_shutdown_during_wait (cb : Nat → Audio2.Buffer → Audio2.Buffer)
    (bufferFrames : Nat) (t : Thread) (padding padding' : Option Nat) (ok ok' : Bool)
    (more : List Input) (hpc : t.pc = Pc.waiting) (hblocked : t.bufferEndEvent = false)
    (_hrun : t.audioProcessingDoneEvent = false) :
    audioThread cb bufferFrames t (Input.Run padding ok) = t ∧
      ∃ cycle,
        (runThread cb bufferFrames t
          [Input.SetDone, Input.SignalBufferEnd, Input.Run padding ok,
            Input.Run padding' ok']).pc = Pc.exited ∧
        (runThread cb bufferFrames t
          [Input.SetDone, Input.SignalBufferEnd, Input.Run padding ok,
            Input.Run padding' ok']).st.trace =
          t.st.trace ++
            [Event.SetDone, Event.WaitForBufferEnd, Event.GetCurrentPadding padding] ++
            cycle ++ [Event.WaitForDone true] ∧
        commits cycle = (if padding.isSome ∧ ok = true then 1 else 0) ∧
        Event.WaitForBufferEnd ∉ cycle ∧
        (runThread cb bufferFrames t
          ([Input.SetDone, Input.SignalBufferEnd, Input.Run padding ok,
            Input.Run padding' ok'] ++ more)).pc = Pc.exited ∧
        commits (runThread cb bufferFrames t
          ([Input.SetDone, Input.SignalBufferEnd, Input.Run padding ok,
            Input.Run padding' ok'] ++ more)).st.trace =
          commits (runThread cb bufferFrames t
            [Input.SetDone, Input.SignalBufferEnd, Input.Run padding ok,
              Input.Run padding' ok']).st.trace := by
  refine ⟨by simp [audioThread, hpc, hblocked], ?_⟩
  have hsplit : ∀ l : List Input,
      runThread cb bufferFrames t (l ++ more) =
        runThread cb bufferFrames (runThread cb bufferFrames t l) more :=
    fun l => runThread_append cb bufferFrames t l more
  rw [hsplit]
  have hex : ∀ t' : Thread, t'.pc = Pc.exited →
      (runThread cb bufferFrames t' more).pc = Pc.exited ∧
        commits (runThread cb bufferFrames t' more).st.trace = commits t'.st.trace :=
    fun t' h => runThread_exited cb bufferFrames more t' h
  cases padding with
  | none =>
    refine ⟨[], ?_⟩
    have hfour : runThread cb bufferFrames t
        [Input.SetDone, Input.SignalBufferEnd, Input.Run none ok, Input.Run padding' ok'] =
        { t with
          pc := Pc.exited, audioProcessingDoneEvent := false, bufferEndEvent := false,
          st := { t.st with trace := t.st.trace ++
            [Event.SetDone, Event.WaitForBufferEnd, Event.GetCurrentPadding none] ++ [] ++
            [Event.WaitForDone true] } } := by
      simp [runThread, audioThread, hpc]
    rw [hfour]
    exact ⟨rfl, rfl, by simp [commits], by simp, hex _ rfl⟩
  | some p =>
    cases ok with
    | false =>
      refine ⟨[Event.GetBuffer (subU32 bufferFrames p) false], ?_⟩
      have hfour : runThread cb bufferFrames t
          [Input.SetDone, Input.SignalBufferEnd, Input.Run (some p) false,
            Input.Run padding' ok'] =
          { t with
            pc := Pc.exited, audioProcessingDoneEvent := false, bufferEndEvent := false,
            st := { t.st with trace := t.st.trace ++
              [Event.SetDone, Event.WaitForBufferEnd, Event.GetCurrentPadding (some p)] ++
              [Event.GetBuffer (subU32 bufferFrames p) false] ++
              [Event.WaitForDone true] } } := by
        simp [runThread, audioThread, hpc, submitBuffer_failed]
      rw [hfour]
      exact ⟨rfl, rfl, by simp [commits], by simp, hex _ rfl⟩
    | true =>
      refine ⟨[Event.GetBuffer (subU32 bufferFrames p) true] ++
        [Event.audioCallback (mulU32 (subU32 bufferFrames p) 2)] ++
        loopEvents (mulU32 (subU32 bufferFrames p) 2) 0
          (cb (mulU32 (subU32 bufferFrames p) 2) t.st.buffer) ++
        [Event.ReleaseBuffer (subU32 bufferFrames p)], ?_⟩
      have hfour : runThread cb bufferFrames t
          [Input.SetDone, Input.SignalBufferEnd, Input.Run (some p) true,
            Input.Run padding' ok'] =
          { t with
            pc := Pc.exited, audioProcessingDoneEvent := false, bufferEndEvent := false,
            st :=
              { buffer := copySampleN (mulU32 (subU32 bufferFrames p) 2)
                  (cb (mulU32 (subU32 bufferFrames p) 2) t.st.buffer),
                trace := t.st.trace ++
                  [Event.SetDone, Event.WaitForBufferEnd, Event.GetCurrentPadding (some p)] ++
                  ([Event.GetBuffer (subU32 bufferFrames p) true] ++
                    [Event.audioCallback (mulU32 (subU32 bufferFrames p) 2)] ++
                    loopEvents (mulU32 (subU32 bufferFrames p) 2) 0
                      (cb (mulU32 (subU32 bufferFrames p) 2) t.st.buffer) ++
                    [Event.ReleaseBuffer (subU32 bufferFrames p)]) ++
                  [Event.WaitForDone true] } } := by
        simp [runThread, audioThread, hpc, submitBuffer_succeeded]
      rw [hfour]
      refine ⟨rfl, rfl, ?_, ?_, hex _ rfl⟩
      · rw [commits_append, commits_append, commits_loopEvents]
        simp [commits]
      · simp [loopEvents]

/-- C8, amended, on a blocked thread with one frame of buffer, whose padding query
and region request succeed in the cycle in progress. -/
theorem C8_shutdown_during_wait_witness :
    ∃ cycle,
      (runThread constantProducer 1
        { pc := Pc.waiting, audioProcessingDoneEvent := false, bufferEndEvent := false,
          st := { buffer := Audio2.init fun _ => 0, trace := [] } }
        [Input.SetDone, Input.SignalBufferEnd, Input.Run (some 0) true,
          Input.Run none false]).st.trace =
        [] ++ [Event.SetDone, Event.WaitForBufferEnd, Event.GetCurrentPadding (some 0)] ++
          cycle ++ [Event.WaitForDone true] ∧
      commits cycle = 1 := by
  obtain ⟨cycle, _, h2, h3, _⟩ := (C8_shutdown_during_wait constantProducer 1
    { pc := Pc.waiting, audioProcessingDoneEvent := false, bufferEndEvent := false,
      st := { buffer := Audio2.init fun _ => 0, trace := [] } }
    (some 0) none true false [] rfl rfl rfl).2
  exact ⟨cycle, h2, by simpa using h3⟩

/-! ## C10: the vertex buffer -/

/-- C10, as stated, fails: for the structure `[Float2]` and `count = 2^28 + 1` the
constructor allocates `2^29 + 2` floats, and for `start = 2^28 < count` the offset
computed by `lock(start, 1)` is `-2^29`, which is not an index of the array (the
product `start * myStride = 2^31` does not fit an `int`). -/
theorem C10_large_buffer_refuted :
    (VertexBuffer.new 268435457 [VertexData.Float2VertexData]).verticesLength = 536870914 ∧
      (0 : Int) ≤ 268435456 ∧ (268435456 : Int) < 268435457 ∧
      (VertexBuffer.new 268435457 [VertexData.Float2VertexData]).lock 268435456 1 =
        -536870912 := by
  decide

/-- C10, amended: for every vertex structure whose elements are
Float2/Float3/Float4/Color data and whose per-element byte sizes (8, 12, 16, 4) sum
to at most `2^31 - 1`, and every `count ≥ 0` with `stride * count ≤ 2^31 - 1`, the
constructor sets `stride()` to that sum, which is a multiple of 4, and allocates
`stride / 4 * count` floats; consequently for every `start` with
`0 ≤ start < count` and a non-empty structure, the float offset
`start * stride / 4` returned by `lock(start, n)` is a valid index of the vertices
array and the whole vertex (`stride / 4` floats from that offset) lies inside it;
and `lock()` returns offset 0. -/
theorem C10_vertex_in_bounds (elements : List VertexData) (count start n : Int)
    (hkind : ∀ e ∈ elements, isFloatOrColor e = true) (hcount : 0 ≤ count)
    (hstride : byteSizeSum elements ≤ 2147483647)
    (hbytes : byteSizeSum elements * count ≤ 2147483647) :
    (VertexBuffer.new count elements).stride = byteSizeSum elements ∧
      4 ∣ (VertexBuffer.new count elements).stride ∧
      (VertexBuffer.new count elements).verticesLength =
        (VertexBuffer.new count elements).stride / 4 * count ∧
      (elements ≠ [] → 0 ≤ start → start < count →
        (VertexBuffer.new count elements).lock start n =
            start * (VertexBuffer.new count elements).stride / 4 ∧
          0 ≤ (VertexBuffer.new count elements).lock start n ∧
          (VertexBuffer.new count elements).lock start n <
            (VertexBuffer.new count elements).verticesLength ∧
          (VertexBuffer.new count elements).lock start n +
              (VertexBuffer.new count elements).stride / 4 ≤
            (VertexBuffer.new count elements).verticesLength) ∧
      (VertexBuffer.new count elements).lockAll = 0 := by
  have hS0 := byteSizeSum_nonneg elements
  have hstr : strideLoop elements 0 = byteSizeSum elements := by
    rw [strideLoop_eq elements 0 (le_refl 0) (by omega)]
    omega
  obtain ⟨q, hq⟩ := byteSizeSum_dvd elements
  have hq0 : 0 ≤ q := by omega
  have hdiv : Int.tdiv (byteSizeSum elements) 4 = q := by
    rw [Int.tdiv_eq_ediv hS0 (by decide)]
    omega
  have hediv : byteSizeSum elements / 4 = q := by omega
  have hqc0 : 0 ≤ q * count := mul_nonneg hq0 hcount
  have hSc : byteSizeSum elements * count = 4 * (q * count) := by rw [hq]; ring
  have hqc : q * count ≤ 2147483647 := by omega
  have hlen : (VertexBuffer.new count elements).verticesLength = q * count := by
    show wrapInt32 (Int.tdiv (strideLoop elements 0) 4 * count) = q * count
    rw [hstr, hdiv]
    exact wrapInt32_of_range (by omega) (by omega)
  have hstride' : (VertexBuffer.new count elements).stride = byteSizeSum elements := hstr
  refine ⟨hstride', ?_, ?_, ?_, ?_⟩
  · rw [hstride']
    exact byteSizeSum_dvd elements
  · rw [hlen, hstride', hediv]
  · intro hne h0 hlt
    have hq1 : 1 ≤ q := by
      have := byteSizeSum_pos hne hkind
      omega
    have hsq0 : 0 ≤ start * q := mul_nonneg h0 hq0
    have hsq : start * q + q ≤ q * count := by
      have h1 : 0 ≤ (count - (start + 1)) * q := mul_nonneg (by omega) hq0
      have h2 : (count - (start + 1)) * q = q * count - (start * q + q) := by ring
      omega
    have hprod : start * byteSizeSum elements = 4 * (start * q) := by rw [hq]; ring
    have hlock : (VertexBuffer.new count elements).lock start n = start * q := by
      show Int.tdiv (wrapInt32 (start * strideLoop elements 0)) 4 = start * q
      rw [hstr, hprod, wrapInt32_of_range (by omega) (by omega),
        Int.tdiv_eq_ediv (by omega) (by decide)]
      omega
    rw [hlock, hlen, hstride', hediv, hprod]
    refine ⟨by omega, hsq0, by omega, hsq⟩
  · show Int.tdiv (wrapInt32 (0 * strideLoop elements 0)) 4 = 0
    rw [Int.zero_mul]
    rfl

/-- C10, amended, on a buffer of 100 vertices of a position (Float3) and a colour,
locked at vertex 99. -/
theorem C10_vertex_in_bounds_witness :
    (VertexBuffer.new 100
        [VertexData.Float3VertexData, VertexData.ColorVertexData]).lock 99 1 <
      (VertexBuffer.new 100
        [VertexData.Float3VertexData, VertexData.ColorVertexData]).verticesLength :=
  ((C10_vertex_in_bounds [VertexData.Float3VertexData, VertexData.ColorVertexData] 100 99 1
    (by decide) (by decide) (by decide) (by decide)).2.2.2.1
    (by decide) (by decide) (by decide)).2.2.1

end Kore
